import Mathlib

/-!
Shallow embedding of the whisper-api service (src/main.py) and verification of
the frozen claims about its job scheduler, worker loop, gateway orchestration,
normalization, startup and token check.

The concurrency of the Python program (one asyncio worker task plus gateway
request handlers, coordinated through an `asyncio.Queue` and per-job
`asyncio.Future`s) is embedded as a small-step transition system: `SysState`
holds the queue, the future of every submitted job, the set of existing
temp files and the worker's control point (`running`); `step` performs one
atomic section of the Python code (a gateway submission, the worker's
`queue.get()`, the worker's try/except/finally body, or the cancellation that
`asyncio.wait_for` performs on the future when the gateway's deadline elapses).
An event log in the state records submissions, execution starts/ends and
future resolutions, so that ordering and at-most-once properties can be
stated over whole executions.
-/

set_option maxHeartbeats 1000000

namespace WhisperApi

/-- Python `str.strip()`: remove leading and trailing whitespace. -/
def stripStr (s : String) : String :=
  String.mk (((s.data.dropWhile Char.isWhitespace).reverse.dropWhile
    Char.isWhitespace).reverse)

/-- A JSON value as far as `run_whisper` inspects it: `payload.get("text")`
is either a string (`isinstance(text, str)`) or something else. -/
inductive JVal where
  | jstr (s : String)
  | jother
deriving DecidableEq, Repr

/-- Python `dict.get`: first binding of the key, `None` when absent. -/
def jsonGet (p : List (String × JVal)) (k : String) : Option JVal :=
  match p with
  | [] => none
  | (k1, v) :: rest => if k1 = k then some v else jsonGet rest k

deriving instance DecidableEq for Except

/-- Environment of one `whisper-cli` subprocess invocation: its exit code and
captured streams, whether it created the `.json` output file, and the parsed
payload (`.error m` when `json.loads` raises with message `m`). -/
structure WhisperEnv where
  returncode : Int
  procStdout : String
  procStderr : String
  outputFileExists : Bool
  payload : Except String (List (String × JVal))
deriving DecidableEq, Repr

/-- Embedding of `run_whisper` (src/main.py lines 81-122): non-zero exit,
missing JSON artifact, JSON decode error and non-string `text` field each
raise (here: return `.error`); otherwise the stripped text is returned. -/
def run_whisper (env : WhisperEnv) : Except String String :=
  if env.returncode ≠ 0 then
    .error ("whisper.cpp failed with code " ++ toString env.returncode ++ ": " ++
      (if stripStr env.procStderr ≠ "" then stripStr env.procStderr
       else stripStr env.procStdout))
  else if env.outputFileExists = false then
    .error "whisper.cpp did not create JSON output"
  else
    match env.payload with
    | .error m => .error m
    | .ok p =>
      match jsonGet p "text" with
      | some (.jstr t) => .ok (stripStr t)
      | _ => .error "JSON output missing transcription text"

/-- Environment of one `ffmpeg` normalization subprocess invocation. -/
structure FfmpegEnv where
  returncode : Int
  procStdout : String
  procStderr : String
  normalizedExists : Bool
deriving DecidableEq, Repr

/-- Embedding of `convert_audio_to_whisper_format` (src/main.py lines 48-78):
raises (returns `.error`) exactly when the subprocess exits non-zero or the
normalized artifact does not exist. -/
def convert_audio_to_whisper_format (env : FfmpegEnv) : Except String Unit :=
  if env.returncode ≠ 0 ∨ env.normalizedExists = false then
    .error ("audio conversion failed: " ++
      (if stripStr env.procStderr ≠ "" then stripStr env.procStderr
       else if stripStr env.procStdout ≠ "" then stripStr env.procStdout
       else "unknown ffmpeg error"))
  else .ok ()

/-- Embedding of `verify_token` (src/main.py lines 42-45): reject with 401
when `API_TOKEN` is empty (falsy) or the header differs from
`"Bearer " + API_TOKEN`. -/
def verify_token (apiToken authorization : String) : Except Nat Unit :=
  if apiToken = "" ∨ authorization ≠ "Bearer " ++ apiToken then .error 401
  else .ok ()

/-- Embedding of `startup_event` (src/main.py lines 141-146) acting on
`app.state.worker_task` (modelled as `Option Nat`, a handle to the created
worker task): raise when `API_TOKEN` is empty, otherwise create the worker
task only when none exists yet. `newHandle` stands for the fresh task object
`asyncio.create_task(worker())` would produce. -/
def startup_event (apiToken : String) (worker_task : Option Nat) (newHandle : Nat) :
    Except String (Option Nat) :=
  if apiToken = "" then .error "API_TOKEN environment variable is required"
  else
    match worker_task with
    | none => .ok (some newHandle)
    | some h => .ok (some h)

/-- State of one `asyncio.Future[str]`: `done()` is true in every state but
`pending`. `cancelled` is the state `asyncio.wait_for` leaves the future in
when the gateway's deadline elapses first. -/
inductive FutureVal where
  | pending
  | success (text : String)
  | failure (msg : String)
  | cancelled
deriving DecidableEq, Repr

/-- Python `future.done()`. -/
def FutureVal.done : FutureVal → Bool
  | .pending => false
  | _ => true

/-- The worker's guarded resolution (src/main.py lines 131-135):
`if not task.future.done(): set_result / set_exception`. A second attempt,
or an attempt on a cancelled future, is a no-op. -/
def resolveIfPending (f : FutureVal) (o : Except String String) : FutureVal :=
  if f.done then f
  else
    match o with
    | .ok t => .success t
    | .error e => .failure e

/-- A `TranscriptionTask` as enqueued by the gateway (src/main.py lines 23-29);
the `future` field of the dataclass lives in `SysState.futures`, keyed by
`task_id`. Identifiers and file paths are drawn from one fresh-name counter. -/
structure TranscriptionTask where
  task_id : Nat
  audio_path : Nat
  language : Option String
  prompt : Option String
deriving DecidableEq, Repr

/-- Events recorded while the system runs, for stating ordering and
at-most-once properties. -/
inductive Ev where
  | submitted (i : Nat)
  | started (i : Nat)
  | finished (i : Nat)
  | resolvedOk (i : Nat)
  | resolvedErr (i : Nat)
  | waitCancelled (i : Nat)
deriving DecidableEq, Repr

/-- The job identifier an event refers to. -/
def Ev.idOf : Ev → Nat
  | .submitted i => i
  | .started i => i
  | .finished i => i
  | .resolvedOk i => i
  | .resolvedErr i => i
  | .waitCancelled i => i

/-- Global state: the `asyncio.Queue` (FIFO list), the futures of all
submitted jobs, the set of currently existing temp files, the single worker's
control point (`running = some t` while the worker executes `t` between
`queue.get()` and the end of the `finally` block), a fresh-name counter and
the event log. -/
structure SysState where
  queue : List TranscriptionTask
  futures : List (Nat × FutureVal)
  files : List Nat
  running : Option TranscriptionTask
  nextId : Nat
  log : List Ev
deriving DecidableEq, Repr

/-- Look up a future by task id. -/
def futGet (fs : List (Nat × FutureVal)) (i : Nat) : Option FutureVal :=
  match fs with
  | [] => none
  | (k, v) :: rest => if k = i then some v else futGet rest i

/-- Overwrite the future stored under a task id (no-op on absent keys). -/
def futSet (fs : List (Nat × FutureVal)) (i : Nat) (v : FutureVal) :
    List (Nat × FutureVal) :=
  match fs with
  | [] => []
  | (k, w) :: rest =>
    if k = i then (k, v) :: futSet rest i v else (k, w) :: futSet rest i v

/-- Embedding of the submission part of `transcribe_audio` (src/main.py
lines 163-190): stage the upload to a temp file, normalize it (ffmpeg creates
the normalized artifact when `env.normalizedExists`), unlink the staged source
in the `finally` block, and on success create the future, build the task and
enqueue it. Returns the new state and the task id, or the normalization
error that the handler re-raises to the caller. -/
def transcribe_submit (s : SysState) (env : FfmpegEnv)
    (language prompt : Option String) : SysState × Except String Nat :=
  let tid := s.nextId
  let srcPath := s.nextId + 1
  let normPath := s.nextId + 2
  let files1 := srcPath :: s.files
  let files2 := if env.normalizedExists then normPath :: files1 else files1
  let s1 : SysState := { s with files := files2, nextId := s.nextId + 3 }
  match convert_audio_to_whisper_format env with
  | .error e =>
    ({ s1 with files := s1.files.filter (· != srcPath) }, .error e)
  | .ok _ =>
    let t : TranscriptionTask :=
      { task_id := tid, audio_path := normPath, language := language,
        prompt := prompt }
    ({ s1 with
        files := s1.files.filter (· != srcPath),
        queue := s1.queue ++ [t],
        futures := (tid, FutureVal.pending) :: s1.futures,
        log := s1.log ++ [Ev.submitted tid] }, .ok tid)

/-- Embedding of the worker's per-job body (src/main.py lines 129-138):
resolve the future with the outcome unless it is already done, then
unconditionally unlink the input file (`missing_ok=True`). -/
def workerFinish (s : SysState) (t : TranscriptionTask)
    (o : Except String String) : SysState :=
  let cleaned := s.files.filter (· != t.audio_path)
  match futGet s.futures t.task_id with
  | none =>
    { s with running := none, files := cleaned,
             log := s.log ++ [Ev.finished t.task_id] }
  | some f =>
    if f.done then
      { s with running := none, files := cleaned,
               log := s.log ++ [Ev.finished t.task_id] }
    else
      match o with
      | .ok txt =>
        { s with running := none,
                 futures := futSet s.futures t.task_id (FutureVal.success txt),
                 files := cleaned,
                 log := s.log ++ [Ev.resolvedOk t.task_id, Ev.finished t.task_id] }
      | .error e =>
        { s with running := none,
                 futures := futSet s.futures t.task_id (FutureVal.failure e),
                 files := cleaned,
                 log := s.log ++ [Ev.resolvedErr t.task_id, Ev.finished t.task_id] }

/-- One atomic section of the program. `submit` is a gateway request up to the
`queue.put`; `dequeue` is the worker's `queue.get()` (enabled only while the
worker is not executing a job — there is a single worker task); `finish` is
the worker's try/except/finally body, with `run_whisper` evaluated in the
given subprocess environment; `timeout` is the future cancellation performed
by `asyncio.wait_for` when the gateway's deadline elapses while the future is
still pending. -/
inductive Action where
  | submit (env : FfmpegEnv) (language prompt : Option String)
  | dequeue
  | finish (env : WhisperEnv)
  | timeout (i : Nat)

/-- The transition function. Disabled actions leave the state unchanged. -/
def step (s : SysState) : Action → SysState
  | .submit env language prompt => (transcribe_submit s env language prompt).1
  | .dequeue =>
    match s.running with
    | some _ => s
    | none =>
      match s.queue with
      | [] => s
      | t :: rest =>
        { s with queue := rest, running := some t,
                 log := s.log ++ [Ev.started t.task_id] }
  | .finish env =>
    match s.running with
    | some t => workerFinish s t (run_whisper env)
    | none => s
  | .timeout i =>
    match futGet s.futures i with
    | some FutureVal.pending =>
      { s with futures := futSet s.futures i FutureVal.cancelled,
               log := s.log ++ [Ev.waitCancelled i] }
    | _ => s

/-- The initial state: empty queue, no futures, no files, idle worker. -/
def init : SysState :=
  { queue := [], futures := [], files := [], running := none, nextId := 0,
    log := [] }

/-- Run a list of actions from a state. -/
def run (s : SysState) (acts : List Action) : SysState :=
  acts.foldl step s

/-- States reachable from the initial state. -/
def Reachable (s : SysState) : Prop :=
  ∃ acts, run init acts = s

/-- Outcome of the gateway's wait (src/main.py lines 192-199), as a function
of the future's value when the wait ends: a resolved success is returned as
`{task_id, text}`, a resolved failure becomes HTTP 500 with the exception
text, and a wait that ends with the future unresolved (the deadline elapsed,
so `asyncio.wait_for` cancelled it) becomes HTTP 504. -/
inductive GatewayResult where
  | ok (task_id : Nat) (text : String)
  | httpError (status : Nat) (detail : String)
deriving DecidableEq, Repr

/-- The gateway's translation of the observed future value into a response. -/
def gatewayObserve (tid : Nat) (f : FutureVal) : GatewayResult :=
  match f with
  | .success t => .ok tid t
  | .failure e => .httpError 500 e
  | .pending => .httpError 504 "Transcription timed out"
  | .cancelled => .httpError 504 "Transcription timed out"

/-! ### Log projections and counting helpers -/

/-- Ids of `submitted` events, in order. -/
def submittedIds : List Ev → List Nat
  | [] => []
  | e :: l =>
    match e with
    | .submitted i => i :: submittedIds l
    | _ => submittedIds l

/-- Ids of `started` events, in order. -/
def startedIds : List Ev → List Nat
  | [] => []
  | e :: l =>
    match e with
    | .started i => i :: startedIds l
    | _ => startedIds l

/-- Ids of `finished` events, in order. -/
def finishedIds : List Ev → List Nat
  | [] => []
  | e :: l =>
    match e with
    | .finished i => i :: finishedIds l
    | _ => finishedIds l

/-- Number of `resolvedOk i` events in the log. -/
def resolOkCount : List Ev → Nat → Nat
  | [], _ => 0
  | e :: l, i =>
    match e with
    | .resolvedOk j => (if j = i then 1 else 0) + resolOkCount l i
    | _ => resolOkCount l i

/-- Number of `resolvedErr i` events in the log. -/
def resolErrCount : List Ev → Nat → Nat
  | [], _ => 0
  | e :: l, i =>
    match e with
    | .resolvedErr j => (if j = i then 1 else 0) + resolErrCount l i
    | _ => resolErrCount l i

theorem submittedIds_append (l1 l2 : List Ev) :
    submittedIds (l1 ++ l2) = submittedIds l1 ++ submittedIds l2 := by
  induction l1 with
  | nil => rfl
  | cons e l ih => cases e <;> simp [submittedIds, ih]

theorem startedIds_append (l1 l2 : List Ev) :
    startedIds (l1 ++ l2) = startedIds l1 ++ startedIds l2 := by
  induction l1 with
  | nil => rfl
  | cons e l ih => cases e <;> simp [startedIds, ih]

theorem finishedIds_append (l1 l2 : List Ev) :
    finishedIds (l1 ++ l2) = finishedIds l1 ++ finishedIds l2 := by
  induction l1 with
  | nil => rfl
  | cons e l ih => cases e <;> simp [finishedIds, ih]

theorem resolOkCount_append (l1 l2 : List Ev) (i : Nat) :
    resolOkCount (l1 ++ l2) i = resolOkCount l1 i + resolOkCount l2 i := by
  induction l1 with
  | nil => simp [resolOkCount]
  | cons e l ih => cases e <;> simp [resolOkCount, ih] <;> omega

theorem resolErrCount_append (l1 l2 : List Ev) (i : Nat) :
    resolErrCount (l1 ++ l2) i = resolErrCount l1 i + resolErrCount l2 i := by
  induction l1 with
  | nil => simp [resolErrCount]
  | cons e l ih => cases e <;> simp [resolErrCount, ih] <;> omega

theorem resolOkCount_eq_zero (l : List Ev) (i : Nat)
    (h : ∀ e ∈ l, Ev.idOf e < i) : resolOkCount l i = 0 := by
  induction l with
  | nil => rfl
  | cons e l ih =>
    have he := h e (List.mem_cons_self e l)
    have hrest : ∀ e1 ∈ l, Ev.idOf e1 < i := fun e1 h1 => h e1 (List.mem_cons_of_mem e h1)
    cases e <;> simp [resolOkCount, ih hrest]
    case resolvedOk j =>
      simp [Ev.idOf] at he
      omega

theorem resolErrCount_eq_zero (l : List Ev) (i : Nat)
    (h : ∀ e ∈ l, Ev.idOf e < i) : resolErrCount l i = 0 := by
  induction l with
  | nil => rfl
  | cons e l ih =>
    have he := h e (List.mem_cons_self e l)
    have hrest : ∀ e1 ∈ l, Ev.idOf e1 < i := fun e1 h1 => h e1 (List.mem_cons_of_mem e h1)
    cases e <;> simp [resolErrCount, ih hrest]
    case resolvedErr j =>
      simp [Ev.idOf] at he
      omega

/-! ### Futures map lemmas -/

theorem futGet_futSet_self (fs : List (Nat × FutureVal)) (i : Nat) (v : FutureVal) :
    futGet (futSet fs i v) i = (futGet fs i).map (fun _ => v) := by
  induction fs with
  | nil => rfl
  | cons p rest ih =>
    obtain ⟨k, w⟩ := p
    by_cases hk : k = i <;> simp [futGet, futSet, hk, ih]

theorem futGet_futSet_ne (fs : List (Nat × FutureVal)) (i j : Nat) (v : FutureVal)
    (h : j ≠ i) : futGet (futSet fs i v) j = futGet fs j := by
  induction fs with
  | nil => rfl
  | cons p rest ih =>
    obtain ⟨k, w⟩ := p
    by_cases hk : k = i
    · subst hk
      simp [futGet, futSet, Ne.symm h, ih]
    · by_cases hj : k = j <;> simp [futGet, futSet, hk, hj, ih, h]

/-- A future that is not done is pending. -/
theorem not_done_eq_pending (f : FutureVal) (h : f.done = false) : f = .pending := by
  cases f <;> simp [FutureVal.done] at h ⊢

/-! ### The inductive invariant -/

/-- One if the worker is currently executing a job, zero otherwise. -/
def runInd : Option TranscriptionTask → Nat
  | none => 0
  | some _ => 1

/-- Relation between a job's future value and the resolution events logged for
it: a resolved future has exactly the one matching resolution event; any other
future (absent, pending or cancelled) has none. -/
def futCounts (l : List Ev) (i : Nat) : Option FutureVal → Prop
  | some (FutureVal.success _) => resolOkCount l i = 1 ∧ resolErrCount l i = 0
  | some (FutureVal.failure _) => resolOkCount l i = 0 ∧ resolErrCount l i = 1
  | _ => resolOkCount l i = 0 ∧ resolErrCount l i = 0

/-- The inductive invariant of the system. `fifo` says the started jobs are a
prefix of the submitted jobs in submission order, the remainder being exactly
the queue's contents; `oneRun` counts executions in flight; `resol` is the
at-most-once resolution discipline; the `fresh` fields say the counter really
is fresh. -/
structure Inv (s : SysState) : Prop where
  fifo : submittedIds s.log =
    startedIds s.log ++ s.queue.map TranscriptionTask.task_id
  oneRun : (startedIds s.log).length = (finishedIds s.log).length + runInd s.running
  resol : ∀ i, futCounts s.log i (futGet s.futures i)
  freshFut : ∀ i, s.nextId ≤ i → futGet s.futures i = none
  freshLog : ∀ e ∈ s.log, Ev.idOf e < s.nextId
  freshQueue : ∀ t ∈ s.queue, t.task_id < s.nextId
  freshRun : ∀ t, s.running = some t → t.task_id < s.nextId

theorem inv_init : Inv init := by
  constructor
  · rfl
  · rfl
  · intro i
    simp [init, futGet, futCounts, resolOkCount, resolErrCount]
  · intro i _
    rfl
  · intro e he
    simp [init] at he
  · intro t ht
    simp [init] at ht
  · intro t ht
    simp [init] at ht

/-- Appending events that carry no resolution for `i` preserves `futCounts`. -/
theorem futCounts_append_zero (l l2 : List Ev) (i : Nat) (f : Option FutureVal)
    (h1 : resolOkCount l2 i = 0) (h2 : resolErrCount l2 i = 0)
    (h : futCounts l i f) : futCounts (l ++ l2) i f := by
  cases f with
  | none =>
    simpa [futCounts, resolOkCount_append, resolErrCount_append, h1, h2] using h
  | some fv =>
    cases fv <;>
      simpa [futCounts, resolOkCount_append, resolErrCount_append, h1, h2] using h

theorem inv_submit_error_state (s : SysState) (fl : List Nat) (h : Inv s) :
    Inv { s with files := fl, nextId := s.nextId + 3 } := by
  constructor
  · exact h.fifo
  · exact h.oneRun
  · exact h.resol
  · intro i hi
    exact h.freshFut i (le_trans (Nat.le_add_right s.nextId 3) hi)
  · intro e1 he1
    exact lt_of_lt_of_le (h.freshLog e1 he1) (Nat.le_add_right s.nextId 3)
  · intro t1 ht1
    exact lt_of_lt_of_le (h.freshQueue t1 ht1) (Nat.le_add_right s.nextId 3)
  · intro t1 ht1
    exact lt_of_lt_of_le (h.freshRun t1 ht1) (Nat.le_add_right s.nextId 3)

theorem inv_submit_ok_state (s : SysState) (fl : List Nat)
    (language prompt : Option String) (h : Inv s) :
    Inv { s with
      files := fl,
      queue := s.queue ++
        [{ task_id := s.nextId, audio_path := s.nextId + 2,
           language := language, prompt := prompt }],
      futures := (s.nextId, FutureVal.pending) :: s.futures,
      nextId := s.nextId + 3,
      log := s.log ++ [Ev.submitted s.nextId] } := by
  constructor
  · simp [submittedIds_append, startedIds_append, submittedIds, startedIds,
      h.fifo]
  · simpa [startedIds_append, finishedIds_append, startedIds, finishedIds]
      using h.oneRun
  · intro i
    show futCounts (s.log ++ [Ev.submitted s.nextId]) i
      (futGet ((s.nextId, FutureVal.pending) :: s.futures) i)
    simp only [futGet]
    by_cases hi : s.nextId = i
    · subst hi
      rw [if_pos rfl]
      simp [futCounts, resolOkCount_append, resolErrCount_append,
        resolOkCount, resolErrCount]
      exact ⟨resolOkCount_eq_zero _ _ h.freshLog,
             resolErrCount_eq_zero _ _ h.freshLog⟩
    · rw [if_neg hi]
      exact futCounts_append_zero s.log [Ev.submitted s.nextId] i _
        (by simp [resolOkCount]) (by simp [resolErrCount]) (h.resol i)
  · intro i hi
    have hi3 : s.nextId + 3 ≤ i := hi
    show futGet ((s.nextId, FutureVal.pending) :: s.futures) i = none
    simp only [futGet]
    rw [if_neg (show ¬s.nextId = i by omega)]
    exact h.freshFut i (by omega)
  · intro e1 he1
    have he2 : e1 ∈ s.log ++ [Ev.submitted s.nextId] := he1
    rcases List.mem_append.1 he2 with hold | hnew
    · exact lt_of_lt_of_le (h.freshLog e1 hold) (Nat.le_add_right s.nextId 3)
    · rcases List.mem_singleton.1 hnew with rfl
      show Ev.idOf (Ev.submitted s.nextId) < s.nextId + 3
      simp only [Ev.idOf]
      omega
  · intro t1 ht1
    have ht2 : t1 ∈ s.queue ++
        [{ task_id := s.nextId, audio_path := s.nextId + 2,
           language := language, prompt := prompt }] := ht1
    rcases List.mem_append.1 ht2 with hold | hnew
    · exact lt_of_lt_of_le (h.freshQueue t1 hold) (Nat.le_add_right s.nextId 3)
    · rcases List.mem_singleton.1 hnew with rfl
      show s.nextId < s.nextId + 3
      omega
  · intro t1 ht1
    exact lt_of_lt_of_le (h.freshRun t1 ht1) (Nat.le_add_right s.nextId 3)

theorem inv_submit (s : SysState) (h : Inv s) (env : FfmpegEnv)
    (language prompt : Option String) :
    Inv (step s (Action.submit env language prompt)) := by
  simp only [step, transcribe_submit]
  cases hc : convert_audio_to_whisper_format env with
  | error e => exact inv_submit_error_state s _ h
  | ok u => exact inv_submit_ok_state s _ language prompt h

theorem inv_dequeue_state (s : SysState) (t : TranscriptionTask)
    (rest : List TranscriptionTask) (h : Inv s) (hr : s.running = none)
    (hq : s.queue = t :: rest) :
    Inv { s with queue := rest, running := some t,
                 log := s.log ++ [Ev.started t.task_id] } := by
  have htq : t.task_id < s.nextId :=
    h.freshQueue t (by rw [hq]; exact List.mem_cons_self t rest)
  have hf := h.fifo
  rw [hq] at hf
  have ho := h.oneRun
  rw [hr] at ho
  constructor
  · simp [submittedIds_append, startedIds_append, submittedIds, startedIds, hf]
  · simp [startedIds_append, finishedIds_append, startedIds, finishedIds,
      runInd] at ho ⊢
    omega
  · intro i
    exact futCounts_append_zero s.log [Ev.started t.task_id] i _
      (by simp [resolOkCount]) (by simp [resolErrCount]) (h.resol i)
  · exact h.freshFut
  · intro e1 he1
    have he2 : e1 ∈ s.log ++ [Ev.started t.task_id] := he1
    rcases List.mem_append.1 he2 with hold | hnew
    · exact h.freshLog e1 hold
    · rcases List.mem_singleton.1 hnew with rfl
      show Ev.idOf (Ev.started t.task_id) < s.nextId
      simp only [Ev.idOf]
      exact htq
  · intro t1 ht1
    exact h.freshQueue t1 (by rw [hq]; exact List.mem_cons_of_mem t ht1)
  · intro t1 ht1
    cases ht1
    exact htq

theorem inv_dequeue (s : SysState) (h : Inv s) : Inv (step s Action.dequeue) := by
  simp only [step]
  cases hr : s.running with
  | some t => exact h
  | none =>
    cases hq : s.queue with
    | nil => exact h
    | cons t rest => exact inv_dequeue_state s t rest h hr hq

theorem inv_finish_noresolve (s : SysState) (t : TranscriptionTask)
    (fl : List Nat) (h : Inv s) (hr : s.running = some t) :
    Inv { s with running := none, files := fl,
                 log := s.log ++ [Ev.finished t.task_id] } := by
  have htid : t.task_id < s.nextId := h.freshRun t hr
  have ho := h.oneRun
  rw [hr] at ho
  constructor
  · simp [submittedIds_append, startedIds_append, submittedIds, startedIds,
      h.fifo]
  · simp [startedIds_append, finishedIds_append, startedIds, finishedIds,
      runInd] at ho ⊢
    omega
  · intro i
    exact futCounts_append_zero s.log [Ev.finished t.task_id] i _
      (by simp [resolOkCount]) (by simp [resolErrCount]) (h.resol i)
  · exact h.freshFut
  · intro e1 he1
    have he2 : e1 ∈ s.log ++ [Ev.finished t.task_id] := he1
    rcases List.mem_append.1 he2 with hold | hnew
    · exact h.freshLog e1 hold
    · rcases List.mem_singleton.1 hnew with rfl
      show Ev.idOf (Ev.finished t.task_id) < s.nextId
      simp only [Ev.idOf]
      exact htid
  · exact h.freshQueue
  · intro t1 ht1
    simp at ht1

theorem inv_finish_resolve_ok (s : SysState) (t : TranscriptionTask)
    (txt : String) (fl : List Nat) (h : Inv s) (hr : s.running = some t)
    (hf : futGet s.futures t.task_id = some FutureVal.pending) :
    Inv { s with running := none,
                 futures := futSet s.futures t.task_id (FutureVal.success txt),
                 files := fl,
                 log := s.log ++ [Ev.resolvedOk t.task_id, Ev.finished t.task_id] } := by
  have htid : t.task_id < s.nextId := h.freshRun t hr
  have ho := h.oneRun
  rw [hr] at ho
  have hcnt := h.resol t.task_id
  rw [hf] at hcnt
  simp [futCounts] at hcnt
  constructor
  · simp [submittedIds_append, startedIds_append, submittedIds, startedIds,
      h.fifo]
  · simp [startedIds_append, finishedIds_append, startedIds, finishedIds,
      runInd] at ho ⊢
    omega
  · intro i
    show futCounts (s.log ++ [Ev.resolvedOk t.task_id, Ev.finished t.task_id]) i
      (futGet (futSet s.futures t.task_id (FutureVal.success txt)) i)
    by_cases hi : i = t.task_id
    · subst hi
      rw [futGet_futSet_self, hf]
      simp [futCounts, resolOkCount_append, resolErrCount_append,
        resolOkCount, resolErrCount, hcnt.1, hcnt.2]
    · rw [futGet_futSet_ne _ _ _ _ hi]
      have hi2 : ¬t.task_id = i := fun hh => hi hh.symm
      exact futCounts_append_zero s.log
        [Ev.resolvedOk t.task_id, Ev.finished t.task_id] i _
        (by simp [resolOkCount, hi2]) (by simp [resolErrCount]) (h.resol i)
  · intro i hi
    have hi2 : s.nextId ≤ i := hi
    show futGet (futSet s.futures t.task_id (FutureVal.success txt)) i = none
    rw [futGet_futSet_ne _ _ _ _ (show i ≠ t.task_id by omega)]
    exact h.freshFut i hi2
  · intro e1 he1
    have he2 : e1 ∈ s.log ++ [Ev.resolvedOk t.task_id, Ev.finished t.task_id] := he1
    rcases List.mem_append.1 he2 with hold | hnew
    · exact h.freshLog e1 hold
    · rcases List.mem_cons.1 hnew with rfl | hnew2
      · show Ev.idOf (Ev.resolvedOk t.task_id) < s.nextId
        simp only [Ev.idOf]
        exact htid
      · rcases List.mem_singleton.1 hnew2 with rfl
        show Ev.idOf (Ev.finished t.task_id) < s.nextId
        simp only [Ev.idOf]
        exact htid
  · exact h.freshQueue
  · intro t1 ht1
    simp at ht1

theorem inv_finish_resolve_error (s : SysState) (t : TranscriptionTask)
    (msg : String) (fl : List Nat) (h : Inv s) (hr : s.running = some t)
    (hf : futGet s.futures t.task_id = some FutureVal.pending) :
    Inv { s with running := none,
                 futures := futSet s.futures t.task_id (FutureVal.failure msg),
                 files := fl,
                 log := s.log ++ [Ev.resolvedErr t.task_id, Ev.finished t.task_id] } := by
  have htid : t.task_id < s.nextId := h.freshRun t hr
  have ho := h.oneRun
  rw [hr] at ho
  have hcnt := h.resol t.task_id
  rw [hf] at hcnt
  simp [futCounts] at hcnt
  constructor
  · simp [submittedIds_append, startedIds_append, submittedIds, startedIds,
      h.fifo]
  · simp [startedIds_append, finishedIds_append, startedIds, finishedIds,
      runInd] at ho ⊢
    omega
  · intro i
    show futCounts (s.log ++ [Ev.resolvedErr t.task_id, Ev.finished t.task_id]) i
      (futGet (futSet s.futures t.task_id (FutureVal.failure msg)) i)
    by_cases hi : i = t.task_id
    · subst hi
      rw [futGet_futSet_self, hf]
      simp [futCounts, resolOkCount_append, resolErrCount_append,
        resolOkCount, resolErrCount, hcnt.1, hcnt.2]
    · rw [futGet_futSet_ne _ _ _ _ hi]
      have hi2 : ¬t.task_id = i := fun hh => hi hh.symm
      exact futCounts_append_zero s.log
        [Ev.resolvedErr t.task_id, Ev.finished t.task_id] i _
        (by simp [resolOkCount]) (by simp [resolErrCount, hi2]) (h.resol i)
  · intro i hi
    have hi2 : s.nextId ≤ i := hi
    show futGet (futSet s.futures t.task_id (FutureVal.failure msg)) i = none
    rw [futGet_futSet_ne _ _ _ _ (show i ≠ t.task_id by omega)]
    exact h.freshFut i hi2
  · intro e1 he1
    have he2 : e1 ∈ s.log ++ [Ev.resolvedErr t.task_id, Ev.finished t.task_id] := he1
    rcases List.mem_append.1 he2 with hold | hnew
    · exact h.freshLog e1 hold
    · rcases List.mem_cons.1 hnew with rfl | hnew2
      · show Ev.idOf (Ev.resolvedErr t.task_id) < s.nextId
        simp only [Ev.idOf]
        exact htid
      · rcases List.mem_singleton.1 hnew2 with rfl
        show Ev.idOf (Ev.finished t.task_id) < s.nextId
        simp only [Ev.idOf]
        exact htid
  · exact h.freshQueue
  · intro t1 ht1
    simp at ht1

theorem inv_workerFinish (s : SysState) (t : TranscriptionTask)
    (o : Except String String) (h : Inv s) (hr : s.running = some t) :
    Inv (workerFinish s t o) := by
  simp only [workerFinish]
  cases hf : futGet s.futures t.task_id with
  | none => exact inv_finish_noresolve s t _ h hr
  | some f =>
    cases f with
    | pending =>
      cases o with
      | ok txt => exact inv_finish_resolve_ok s t txt _ h hr hf
      | error msg => exact inv_finish_resolve_error s t msg _ h hr hf
    | success a => exact inv_finish_noresolve s t _ h hr
    | failure a => exact inv_finish_noresolve s t _ h hr
    | cancelled => exact inv_finish_noresolve s t _ h hr

theorem inv_timeout_state (s : SysState) (i0 : Nat) (h : Inv s)
    (hf : futGet s.futures i0 = some FutureVal.pending) :
    Inv { s with futures := futSet s.futures i0 FutureVal.cancelled,
                 log := s.log ++ [Ev.waitCancelled i0] } := by
  have hi0 : i0 < s.nextId := by
    by_contra hh
    have hn := h.freshFut i0 (by omega)
    rw [hn] at hf
    cases hf
  have hcnt := h.resol i0
  rw [hf] at hcnt
  simp [futCounts] at hcnt
  constructor
  · simp [submittedIds_append, startedIds_append, submittedIds, startedIds,
      h.fifo]
  · simpa [startedIds_append, finishedIds_append, startedIds, finishedIds]
      using h.oneRun
  · intro i
    show futCounts (s.log ++ [Ev.waitCancelled i0]) i
      (futGet (futSet s.futures i0 FutureVal.cancelled) i)
    by_cases hi : i = i0
    · subst hi
      rw [futGet_futSet_self, hf]
      simp [futCounts, resolOkCount_append, resolErrCount_append,
        resolOkCount, resolErrCount, hcnt.1, hcnt.2]
    · rw [futGet_futSet_ne _ _ _ _ hi]
      exact futCounts_append_zero s.log [Ev.waitCancelled i0] i _
        (by simp [resolOkCount]) (by simp [resolErrCount]) (h.resol i)
  · intro i hi
    have hi2 : s.nextId ≤ i := hi
    show futGet (futSet s.futures i0 FutureVal.cancelled) i = none
    rw [futGet_futSet_ne _ _ _ _ (show i ≠ i0 by omega)]
    exact h.freshFut i hi2
  · intro e1 he1
    have he2 : e1 ∈ s.log ++ [Ev.waitCancelled i0] := he1
    rcases List.mem_append.1 he2 with hold | hnew
    · exact h.freshLog e1 hold
    · rcases List.mem_singleton.1 hnew with rfl
      show Ev.idOf (Ev.waitCancelled i0) < s.nextId
      simp only [Ev.idOf]
      exact hi0
  · exact h.freshQueue
  · exact h.freshRun

theorem inv_timeout (s : SysState) (h : Inv s) (i0 : Nat) :
    Inv (step s (Action.timeout i0)) := by
  simp only [step]
  cases hf : futGet s.futures i0 with
  | none => exact h
  | some f =>
    cases f with
    | pending => exact inv_timeout_state s i0 h hf
    | success txt => exact h
    | failure msg => exact h
    | cancelled => exact h

theorem inv_step (s : SysState) (h : Inv s) (a : Action) : Inv (step s a) := by
  cases a with
  | submit env language prompt => exact inv_submit s h env language prompt
  | dequeue => exact inv_dequeue s h
  | finish env =>
    simp only [step]
    cases hr : s.running with
    | none => exact h
    | some t => exact inv_workerFinish s t (run_whisper env) h hr
  | timeout i => exact inv_timeout s h i

theorem inv_run (s : SysState) (h : Inv s) (acts : List Action) :
    Inv (run s acts) := by
  induction acts generalizing s with
  | nil => exact h
  | cons a rest ih => exact ih (step s a) (inv_step s h a)

theorem inv_reachable (s : SysState) (h : Reachable s) : Inv s := by
  obtain ⟨acts, hacts⟩ := h
  exact hacts ▸ inv_run init inv_init acts

/-! ### Characterizations of single steps, used by the claim theorems -/

/-- The worker's `finally` block: after the body runs for `t`, the input file
of `t` is unlinked, in every branch (success, failure, already-done future). -/
theorem step_finish_files (s : SysState) (t : TranscriptionTask)
    (env : WhisperEnv) (hr : s.running = some t) :
    (step s (Action.finish env)).files = s.files.filter (· != t.audio_path) := by
  simp only [step, hr, workerFinish]
  cases hf : futGet s.futures t.task_id with
  | none => rfl
  | some f =>
    cases f with
    | pending => cases run_whisper env <;> rfl
    | success a => rfl
    | failure a => rfl
    | cancelled => rfl

/-- After the worker's body, the worker is back at `queue.get()`. -/
theorem step_finish_running (s : SysState) (t : TranscriptionTask)
    (env : WhisperEnv) (hr : s.running = some t) :
    (step s (Action.finish env)).running = none := by
  simp only [step, hr, workerFinish]
  cases hf : futGet s.futures t.task_id with
  | none => rfl
  | some f =>
    cases f with
    | pending => cases run_whisper env <;> rfl
    | success a => rfl
    | failure a => rfl
    | cancelled => rfl

/-- The worker's body does not touch the queue. -/
theorem step_finish_queue (s : SysState) (t : TranscriptionTask)
    (env : WhisperEnv) (hr : s.running = some t) :
    (step s (Action.finish env)).queue = s.queue := by
  simp only [step, hr, workerFinish]
  cases hf : futGet s.futures t.task_id with
  | none => rfl
  | some f =>
    cases f with
    | pending => cases run_whisper env <;> rfl
    | success a => rfl
    | failure a => rfl
    | cancelled => rfl

/-- When the future is still pending, the worker's body resolves it with the
outcome of `run_whisper`. -/
theorem step_finish_future (s : SysState) (t : TranscriptionTask)
    (env : WhisperEnv) (hr : s.running = some t)
    (hp : futGet s.futures t.task_id = some FutureVal.pending) :
    futGet (step s (Action.finish env)).futures t.task_id =
      some (match run_whisper env with
            | .ok txt => FutureVal.success txt
            | .error e => FutureVal.failure e) := by
  simp only [step, hr, workerFinish, hp]
  cases ho : run_whisper env with
  | ok txt =>
    show futGet (futSet s.futures t.task_id (FutureVal.success txt)) t.task_id = _
    rw [futGet_futSet_self, hp]
    rfl
  | error e =>
    show futGet (futSet s.futures t.task_id (FutureVal.failure e)) t.task_id = _
    rw [futGet_futSet_self, hp]
    rfl

/-- When the future is already done (resolved or cancelled), the worker's body
leaves the futures untouched: the second resolution attempt is a no-op. -/
theorem step_finish_future_done (s : SysState) (t : TranscriptionTask)
    (env : WhisperEnv) (f : FutureVal) (hr : s.running = some t)
    (hp : futGet s.futures t.task_id = some f) (hd : f.done = true) :
    (step s (Action.finish env)).futures = s.futures := by
  simp only [step, hr, workerFinish, hp]
  cases f with
  | pending => simp [FutureVal.done] at hd
  | success a => rfl
  | failure a => rfl
  | cancelled => rfl

/-- A timeout only touches the job's future: queue, worker state and files
are unchanged — the job is neither removed nor aborted. -/
theorem step_timeout_preserves (s : SysState) (i : Nat) :
    (step s (Action.timeout i)).queue = s.queue ∧
    (step s (Action.timeout i)).running = s.running ∧
    (step s (Action.timeout i)).files = s.files := by
  simp only [step]
  cases hf : futGet s.futures i with
  | none => exact ⟨rfl, rfl, rfl⟩
  | some f => cases f <;> exact ⟨rfl, rfl, rfl⟩

/-- A successful conversion implies a zero exit code and an existing
normalized artifact. -/
theorem convert_ok_normalized (env : FfmpegEnv) (u : Unit)
    (hc : convert_audio_to_whisper_format env = .ok u) :
    env.returncode = 0 ∧ env.normalizedExists = true := by
  by_cases hcond : env.returncode ≠ 0 ∨ env.normalizedExists = false
  · simp [convert_audio_to_whisper_format, hcond] at hc
  · push_neg at hcond
    exact ⟨hcond.1, by simpa using hcond.2⟩

/-- Appending to a non-empty string yields a non-empty string. -/
theorem append_ne_empty_left (a b : String) (ha : a ≠ "") : a ++ b ≠ "" := by
  intro h
  apply ha
  have hd := congrArg String.data h
  rw [String.data_append] at hd
  simp at hd
  cases a with
  | mk d => simp_all

/-- A `run_whisper` failure caused by a non-zero exit code carries a non-empty
diagnostic message (it starts with a fixed non-empty phrase). -/
theorem run_whisper_error_nonempty (env : WhisperEnv) (e : String)
    (hrc : env.returncode ≠ 0) (he : run_whisper env = .error e) : e ≠ "" := by
  rw [show run_whisper env =
      (if env.returncode ≠ 0 then
        .error ("whisper.cpp failed with code " ++ toString env.returncode ++ ": " ++
          (if stripStr env.procStderr ≠ "" then stripStr env.procStderr
           else stripStr env.procStdout))
      else if env.outputFileExists = false then
        .error "whisper.cpp did not create JSON output"
      else
        match env.payload with
        | .error m => .error m
        | .ok p =>
          match jsonGet p "text" with
          | some (.jstr t) => .ok (stripStr t)
          | _ => .error "JSON output missing transcription text") from rfl,
    if_pos hrc] at he
  have he2 : ("whisper.cpp failed with code " ++ toString env.returncode ++ ": " ++
      (if stripStr env.procStderr ≠ "" then stripStr env.procStderr
       else stripStr env.procStdout)) = e := by
    injection he
  rw [← he2]
  exact append_ne_empty_left _ _
    (append_ne_empty_left _ _
      (append_ne_empty_left "whisper.cpp failed with code " _ (by decide)))

/-! ### Concrete environments and traces for witnesses -/

/-- An ffmpeg run that succeeds and produces the normalized artifact. -/
def goodFfmpeg : FfmpegEnv :=
  { returncode := 0, procStdout := "", procStderr := "", normalizedExists := true }

/-- An ffmpeg run that exits non-zero without producing the artifact. -/
def badFfmpeg : FfmpegEnv :=
  { returncode := 1, procStdout := "", procStderr := "ffmpeg boom",
    normalizedExists := false }

/-- A whisper run that succeeds with payload text `" hello "`. -/
def goodWhisper : WhisperEnv :=
  { returncode := 0, procStdout := "", procStderr := "",
    outputFileExists := true, payload := .ok [("text", JVal.jstr " hello ")] }

/-- A whisper run that exits non-zero. -/
def badWhisper : WhisperEnv :=
  { returncode := 1, procStdout := "", procStderr := "crash",
    outputFileExists := false, payload := .error "x" }

/-- A full demo execution: submit, dequeue, execute successfully, then a late
timeout attempt on the already-resolved future. -/
def demoActs : List Action :=
  [Action.submit goodFfmpeg none none, Action.dequeue,
   Action.finish goodWhisper, Action.timeout 0]

/-- A state with job 0 dequeued and executing. -/
def demoReady : SysState :=
  run init [Action.submit goodFfmpeg none none, Action.dequeue]

/-- A state with job 0 executing and job 3 still queued. -/
def demoReady2 : SysState :=
  run init [Action.submit goodFfmpeg none none,
            Action.submit goodFfmpeg (some "en") none, Action.dequeue]

/-- The first submitted demo job. -/
def task0 : TranscriptionTask :=
  { task_id := 0, audio_path := 2, language := none, prompt := none }

/-- The second submitted demo job. -/
def task3 : TranscriptionTask :=
  { task_id := 3, audio_path := 5, language := some "en", prompt := none }

/-! ### Claim theorems -/

/-- C1: for every Job, the completion slot is resolved at most once over any
reachable execution (success or failure, never both), and any resolution
attempt on an already-done future — including one cancelled because the
gateway abandoned its wait at the deadline — is a no-op. -/
theorem C1_completion_resolved_at_most_once :
    (∀ s, Reachable s → ∀ i,
      resolOkCount s.log i + resolErrCount s.log i ≤ 1) ∧
    (∀ (f : FutureVal) (o : Except String String),
      f.done = true → resolveIfPending f o = f) := by
  constructor
  · intro s hs i
    have hc := (inv_reachable s hs).resol i
    cases hfv : futGet s.futures i with
    | none =>
      rw [hfv] at hc
      simp [futCounts] at hc
      omega
    | some f =>
      cases f <;> (rw [hfv] at hc; simp [futCounts] at hc; omega)
  · intro f o hd
    simp [resolveIfPending, hd]

theorem C1_witness :
    (resolOkCount (run init demoActs).log 0 +
      resolErrCount (run init demoActs).log 0 ≤ 1) ∧
    resolveIfPending (FutureVal.success "hello") (Except.error "late") =
      FutureVal.success "hello" :=
  ⟨C1_completion_resolved_at_most_once.1 (run init demoActs) ⟨demoActs, rfl⟩ 0,
   C1_completion_resolved_at_most_once.2 (FutureVal.success "hello")
     (Except.error "late") rfl⟩

/-- C2: in every reachable state the jobs started so far are, in order, an
initial segment of the jobs submitted so far (strict FIFO), at most one job
has been started but not yet finished, and the worker cannot dequeue another
job while it is still executing one. -/
theorem C2_fifo_single_worker :
    ∀ s, Reachable s →
      (∃ r, submittedIds s.log = startedIds s.log ++ r) ∧
      (startedIds s.log).length ≤ (finishedIds s.log).length + 1 ∧
      (∀ t, s.running = some t → step s Action.dequeue = s) := by
  intro s hs
  have hinv := inv_reachable s hs
  refine ⟨⟨s.queue.map TranscriptionTask.task_id, hinv.fifo⟩, ?_, ?_⟩
  · have ho := hinv.oneRun
    cases hr : s.running with
    | none =>
      rw [hr] at ho
      simp [runInd] at ho
      omega
    | some t =>
      rw [hr] at ho
      simp [runInd] at ho
      omega
  · intro t hr
    simp [step, hr]

theorem C2_witness :
    (∃ r, submittedIds (run init demoActs).log =
        startedIds (run init demoActs).log ++ r) ∧
    (startedIds (run init demoActs).log).length ≤
        (finishedIds (run init demoActs).log).length + 1 ∧
    (∀ t, (run init demoActs).running = some t →
        step (run init demoActs) Action.dequeue = run init demoActs) :=
  C2_fifo_single_worker (run init demoActs) ⟨demoActs, rfl⟩

/-- C3: whatever the outcome of executing the dequeued job (success, any
failure, or a no-op resolution because the submitter abandoned its wait), the
worker's `finally` block deletes the job's input file. -/
theorem C3_input_always_released :
    ∀ (s : SysState) (t : TranscriptionTask) (env : WhisperEnv),
      s.running = some t →
      t.audio_path ∉ (step s (Action.finish env)).files := by
  intro s t env hr
  rw [step_finish_files s t env hr]
  simp [List.mem_filter]

theorem C3_witness :
    task0.audio_path ∉ (step demoReady (Action.finish goodWhisper)).files :=
  C3_input_always_released demoReady task0 goodWhisper rfl

/-- C4: an execution failure is captured inside the worker: it resolves the
job's pending future with a failure value (carrying a non-empty diagnostic
when the subprocess exited non-zero), the worker returns to `queue.get()`
with the queue untouched, and the next queued job is dequeued normally. -/
theorem C4_worker_survives_failure :
    ∀ (s : SysState) (t : TranscriptionTask) (env : WhisperEnv) (e : String),
      s.running = some t →
      run_whisper env = .error e →
      ((step s (Action.finish env)).running = none ∧
       (step s (Action.finish env)).queue = s.queue ∧
       (futGet s.futures t.task_id = some FutureVal.pending →
         futGet (step s (Action.finish env)).futures t.task_id =
           some (FutureVal.failure e)) ∧
       (env.returncode ≠ 0 → e ≠ "") ∧
       (∀ t2 rest, s.queue = t2 :: rest →
         (step (step s (Action.finish env)) Action.dequeue).running = some t2)) := by
  intro s t env e hr he
  have hrun := step_finish_running s t env hr
  have hq := step_finish_queue s t env hr
  refine ⟨hrun, hq, ?_, ?_, ?_⟩
  · intro hp
    have hfu := step_finish_future s t env hr hp
    rw [he] at hfu
    simpa using hfu
  · intro hrc
    exact run_whisper_error_nonempty env e hrc he
  · intro t2 rest hqe
    have h2 : (step s (Action.finish env)).queue = t2 :: rest := by
      rw [hq, hqe]
    have hgen : ∀ (s3 : SysState), s3.running = none → s3.queue = t2 :: rest →
        (step s3 Action.dequeue).running = some t2 := by
      intro s3 h3r h3q
      simp [step, h3r, h3q]
    exact hgen _ hrun h2

theorem C4_witness :
    (step demoReady2 (Action.finish badWhisper)).running = none ∧
    futGet (step demoReady2 (Action.finish badWhisper)).futures task0.task_id =
      some (FutureVal.failure "whisper.cpp failed with code 1: crash") ∧
    "whisper.cpp failed with code 1: crash" ≠ "" ∧
    (step (step demoReady2 (Action.finish badWhisper)) Action.dequeue).running =
      some task3 := by
  have h := C4_worker_survives_failure demoReady2 task0 badWhisper
    "whisper.cpp failed with code 1: crash" rfl rfl
  exact ⟨h.1, h.2.2.1 rfl, h.2.2.2.1 (by decide), h.2.2.2.2 task3 [] rfl⟩

/-- C5: when the transcription subprocess exits zero and produces a JSON
artifact whose `text` field is the string `w`, `run_whisper` returns `w`
stripped of surrounding whitespace, the worker resolves the pending future
with exactly that text, the input file no longer exists afterward, and the
gateway's response is the job's task id together with that text. -/
theorem C5_success_returns_trimmed_text :
    ∀ (s : SysState) (t : TranscriptionTask) (env : WhisperEnv)
      (p : List (String × JVal)) (w : String),
      s.running = some t →
      futGet s.futures t.task_id = some FutureVal.pending →
      env.returncode = 0 →
      env.outputFileExists = true →
      env.payload = .ok p →
      jsonGet p "text" = some (JVal.jstr w) →
      (run_whisper env = .ok (stripStr w) ∧
       futGet (step s (Action.finish env)).futures t.task_id =
         some (FutureVal.success (stripStr w)) ∧
       t.audio_path ∉ (step s (Action.finish env)).files ∧
       gatewayObserve t.task_id (FutureVal.success (stripStr w)) =
         GatewayResult.ok t.task_id (stripStr w)) := by
  intro s t env p w hr hp hrc hof hpl hj
  have hw : run_whisper env = .ok (stripStr w) := by
    simp [run_whisper, hrc, hof, hpl, hj]
  refine ⟨hw, ?_, ?_, rfl⟩
  · have hfu := step_finish_future s t env hr hp
    rw [hw] at hfu
    simpa using hfu
  · rw [step_finish_files s t env hr]
    simp [List.mem_filter]

theorem C5_witness :
    run_whisper goodWhisper = .ok (stripStr " hello ") ∧
    futGet (step demoReady (Action.finish goodWhisper)).futures task0.task_id =
      some (FutureVal.success (stripStr " hello ")) ∧
    task0.audio_path ∉ (step demoReady (Action.finish goodWhisper)).files := by
  have h := C5_success_returns_trimmed_text demoReady task0 goodWhisper
    [("text", JVal.jstr " hello ")] " hello " rfl rfl rfl rfl rfl rfl
  exact ⟨h.1, h.2.1, h.2.2.1⟩

/-- C6: a deadline expiry is observed as HTTP 504, distinct from the HTTP 500
of an execution failure; the timeout removes nothing from the queue, does not
abort the worker and deletes no file; and the worker's body afterwards still
clears the worker slot and deletes the job's input file even though resolving
the cancelled future is a no-op. -/
theorem C6_timeout_distinct_and_nonaborting :
    ∀ (s : SysState) (i : Nat),
      ((step s (Action.timeout i)).queue = s.queue ∧
       (step s (Action.timeout i)).running = s.running ∧
       (step s (Action.timeout i)).files = s.files) ∧
      gatewayObserve i FutureVal.cancelled =
        GatewayResult.httpError 504 "Transcription timed out" ∧
      (∀ e, gatewayObserve i (FutureVal.failure e) ≠
        gatewayObserve i FutureVal.cancelled) ∧
      (∀ (t : TranscriptionTask) (env : WhisperEnv),
        s.running = some t →
        (t.audio_path ∉
            (step (step s (Action.timeout i)) (Action.finish env)).files ∧
         (step (step s (Action.timeout i)) (Action.finish env)).running =
           none)) := by
  intro s i
  have hpres := step_timeout_preserves s i
  refine ⟨hpres, rfl, ?_, ?_⟩
  · intro e
    simp [gatewayObserve]
  · intro t env hr
    have hr2 : (step s (Action.timeout i)).running = some t := by
      rw [hpres.2.1, hr]
    constructor
    · rw [step_finish_files _ t env hr2]
      simp [List.mem_filter]
    · exact step_finish_running _ t env hr2

theorem C6_witness :
    (step demoReady (Action.timeout 0)).queue = demoReady.queue ∧
    gatewayObserve 0 FutureVal.cancelled =
      GatewayResult.httpError 504 "Transcription timed out" ∧
    task0.audio_path ∉
      (step (step demoReady (Action.timeout 0)) (Action.finish badWhisper)).files := by
  have h := C6_timeout_distinct_and_nonaborting demoReady 0
  exact ⟨h.1.1, h.2.1, (h.2.2.2 task0 badWhisper rfl).1⟩

/-- C7: normalization fails exactly when ffmpeg exits non-zero or the
normalized artifact is missing; when it fails, no task and no future are
created, nothing is enqueued, and the submission surfaces the error itself. -/
theorem C7_normalization_failure :
    ∀ (env : FfmpegEnv) (s : SysState) (language prompt : Option String)
      (e : String),
      ((∃ e2, convert_audio_to_whisper_format env = .error e2) ↔
        (env.returncode ≠ 0 ∨ env.normalizedExists = false)) ∧
      (convert_audio_to_whisper_format env = .error e →
        ((transcribe_submit s env language prompt).1.queue = s.queue ∧
         (transcribe_submit s env language prompt).1.futures = s.futures ∧
         (transcribe_submit s env language prompt).2 = .error e)) := by
  intro env s language prompt e
  constructor
  · by_cases hcond : env.returncode ≠ 0 ∨ env.normalizedExists = false <;>
      simp [convert_audio_to_whisper_format, hcond]
  · intro hc
    simp [transcribe_submit, hc]

theorem C7_witness :
    ((∃ e2, convert_audio_to_whisper_format badFfmpeg = .error e2) ↔
      (badFfmpeg.returncode ≠ 0 ∨ badFfmpeg.normalizedExists = false)) ∧
    (transcribe_submit init badFfmpeg none none).1.queue = init.queue ∧
    (transcribe_submit init badFfmpeg none none).2 =
      .error "audio conversion failed: ffmpeg boom" := by
  have h := C7_normalization_failure badFfmpeg init none none
    "audio conversion failed: ffmpeg boom"
  exact ⟨h.1, (h.2 (by decide)).1, (h.2 (by decide)).2.2⟩

/-- C8: with the token configured, startup creates the worker only when none
exists: starting again while a worker is active returns the same worker
unchanged (idempotent no-op), so at most one worker instance ever exists. -/
theorem C8_startup_idempotent :
    ∀ (tok : String) (st st2 : Option Nat) (h1 h2 : Nat),
      tok ≠ "" →
      startup_event tok st h1 = .ok st2 →
      (startup_event tok st2 h2 = .ok st2 ∧ st2.isSome = true) := by
  intro tok st st2 h1 h2 htok hstart
  cases st with
  | none =>
    simp [startup_event, htok] at hstart
    subst hstart
    simp [startup_event, htok]
  | some w =>
    simp [startup_event, htok] at hstart
    subst hstart
    simp [startup_event, htok]

theorem C8_witness :
    startup_event "secret" (some 5) 7 = .ok (some 5) ∧
    (some 5 : Option Nat).isSome = true :=
  C8_startup_idempotent "secret" none (some 5) 5 7 (by decide) rfl

/-- C9: the staged pre-normalization temp file is deleted before the request
returns, both when normalization succeeds and when it raises; on success the
normalized artifact does survive this point. -/
theorem C9_source_temp_deleted :
    ∀ (s : SysState) (env : FfmpegEnv) (language prompt : Option String),
      ((s.nextId + 1) ∉ (transcribe_submit s env language prompt).1.files ∧
       (∀ u, convert_audio_to_whisper_format env = .ok u →
         (s.nextId + 2) ∈ (transcribe_submit s env language prompt).1.files)) := by
  intro s env language prompt
  constructor
  · simp only [transcribe_submit]
    cases hc : convert_audio_to_whisper_format env with
    | error e => simp [List.mem_filter]
    | ok u => simp [List.mem_filter]
  · intro u hc
    have hn := (convert_ok_normalized env u hc).2
    have hne : (s.nextId + 2 : Nat) ≠ s.nextId + 1 := by omega
    simp [transcribe_submit, hc, hn, List.mem_filter, hne]

theorem C9_witness :
    (init.nextId + 1) ∉ (transcribe_submit init goodFfmpeg none none).1.files ∧
    (init.nextId + 2) ∈ (transcribe_submit init goodFfmpeg none none).1.files := by
  have h := C9_source_temp_deleted init goodFfmpeg none none
  exact ⟨h.1, h.2 () rfl⟩

/-- C10: the token check raises 401 exactly when the configured token is empty
or the Authorization header differs from `"Bearer " + token`; with an empty
token every request is rejected, whatever the header (no empty-token bypass). -/
theorem C10_token_check :
    (∀ (tok auth : String),
      verify_token tok auth = .error 401 ↔
        (tok = "" ∨ auth ≠ "Bearer " ++ tok)) ∧
    (∀ auth : String, verify_token "" auth = .error 401) := by
  constructor
  · intro tok auth
    by_cases hcond : tok = "" ∨ auth ≠ "Bearer " ++ tok <;>
      simp [verify_token, hcond]
  · intro auth
    simp [verify_token]

end WhisperApi
